import Mathlib

/-!
# product-api: a REST facade over a DynamoDB table

Shallow embedding of `dynamodbservice/dynamodbservice.go`, `config/config.go` and `main.go`.

* Go's `error` is the text of the error (`err.Error()`); a function returning `error` returns
  `Except Error Unit`, a function returning `(T, error)` returns `Except Error T`
  (the `nil` value next to a non-nil error is the absence of a value in `Except.error`).
* `float64` prices are rationals: every finite `float64` is one, and neither the store's number
  type nor a JSON number can denote a NaN or an infinity.  Only comparisons of prices are used.
* The remote store, the AWS session, the file system and the JSON / attribute codecs are not code
  of the repository.  The store is the interface `DynamoDB`, threaded through the program as
  explicit state; the other collaborators are parameters of the functions that call them.
* What the program prints on standard output and the headers of its HTTP responses are not
  modelled.
-/

namespace ProductApi

/-- The text of a Go `error`. -/
abbrev Error := String

/-! ## dynamodbservice: data model -/

/-- `type Product struct { Id int; Name string; Price float64 }` -/
structure Product where
  Id : Int
  Name : String
  Price : ℚ
  deriving DecidableEq

/-- `const TableName = "Products"` -/
def TableName : String := "Products"

/-- `const IdAttribute = "id"` -/
def IdAttribute : String := "id"

/-! ## The store client (`*dynamodb.DynamoDB`) as an interface -/

/-- `dynamodb.AttributeValue`, for the kinds of value a `Product` uses. -/
inductive AttributeValue where
  | N (n : ℚ)
  | S (s : String)
  | NULL
  deriving DecidableEq

/-- A record of the store: `map[string]*dynamodb.AttributeValue`. -/
abbrev Item := List (String × AttributeValue)

/-- `dynamodb.ScanInput`: only the table name is set by the program. -/
structure ScanInput where
  TableName : String
  deriving DecidableEq

/-- `dynamodb.ScanOutput`: the records of one response and, when the response does not reach
the end of the table, the key after which a further request would continue. -/
structure ScanOutput where
  Items : List Item
  LastEvaluatedKey : Option Item
  deriving DecidableEq

/-- `dynamodb.PutItemInput` -/
structure PutItemInput where
  Item : Item
  TableName : String
  deriving DecidableEq

/-- `dynamodb.KeySchemaElement` -/
structure KeySchemaElement where
  AttributeName : String
  KeyType : String
  deriving DecidableEq

/-- `dynamodb.AttributeDefinition` -/
structure AttributeDefinition where
  AttributeName : String
  AttributeType : String
  deriving DecidableEq

/-- `dynamodb.ProvisionedThroughput` -/
structure ProvisionedThroughput where
  ReadCapacityUnits : Int
  WriteCapacityUnits : Int
  deriving DecidableEq

/-- `dynamodb.CreateTableInput` -/
structure CreateTableInput where
  TableName : String
  KeySchema : List KeySchemaElement
  AttributeDefinitions : List AttributeDefinition
  ProvisionedThroughput : ProvisionedThroughput
  deriving DecidableEq

/-- `dynamodb.ListTablesOutput` -/
structure ListTablesOutput where
  TableNames : List String
  deriving DecidableEq

/-- The four operations of the store client the program calls.  `σ` is the state of the remote
store; every operation returns its answer and the state after the request. -/
structure DynamoDB (σ : Type) where
  Scan : ScanInput → σ → Except Error ScanOutput × σ
  PutItem : PutItemInput → σ → Except Error Unit × σ
  ListTables : σ → Except Error ListTablesOutput × σ
  CreateTable : CreateTableInput → σ → Except Error Unit × σ

/-! ## Library routines -/

namespace dynamodbattribute

/-- `dynamodbattribute.UnmarshalListOfMaps(items, &out)` for a decoder `unmarshal` of one record:
the records are decoded in order and the first failure is the failure of the whole call. -/
def UnmarshalListOfMaps (unmarshal : Item → Except Error Product) :
    List Item → Except Error (List Product)
  | [] => .ok []
  | item :: rest =>
    match unmarshal item with
    | .error err => .error err
    | .ok p =>
      match UnmarshalListOfMaps unmarshal rest with
      | .error err => .error err
      | .ok ps => .ok (p :: ps)

end dynamodbattribute

namespace sort

/-- The inner loop of the library's insertion sort,
`for j := i; j > a && less(j, j-1); j-- { swap(j, j-1) }`: the element `x` at position `i` moves
left past every neighbour it is less than.  The second argument is `data[a:i]` read from
position `i-1` down to `a`. -/
def sinkLeft {α : Type} (less : α → α → Bool) (x : α) : List α → List α
  | [] => [x]
  | y :: left => if less x y then y :: sinkLeft less x left else x :: y :: left

/-- `sort.Slice(x, less)`, as the insertion sort of package `sort`
(`for i := a + 1; i < b; i++ { ... }`), which is what the library runs on short slices; on
longer ones it runs a quicksort variant, whose result is the same up to the order of elements
that `less` does not separate. -/
def Slice {α : Type} (x : List α) (less : α → α → Bool) : List α :=
  (x.foldl (fun sorted e => sinkLeft less e sorted) []).reverse

end sort

/-! ## dynamodbservice: catalog access -/

/-- `func (db Products) GetAll() ([]Product, error)` -/
def GetAll {σ : Type} (Items : DynamoDB σ) (unmarshal : Item → Except Error Product) (s : σ) :
    Except Error (List Product) × σ :=
  match Items.Scan { TableName := TableName } s with
  | (.error err, s1) => (.error ("Query GetAll failed:\n" ++ err), s1)
  | (.ok result, s1) =>
    match dynamodbattribute.UnmarshalListOfMaps unmarshal result.Items with
    | .error err => (.error ("Unmarshalling GetAll failed:\n" ++ err), s1)
    | .ok temp => (.ok (sort.Slice temp (fun a b => decide (a.Price > b.Price))), s1)

/-- `func (db *Products) AddProduct(newProduct Product) error` -/
def AddProduct {σ : Type} (Items : DynamoDB σ) (MarshalMap : Product → Except Error Item)
    (newProduct : Product) (s : σ) : Except Error Unit × σ :=
  match MarshalMap newProduct with
  | .error err => (.error ("AddProduct -> Error marshalling product: " ++ err), s)
  | .ok data =>
    match Items.PutItem { Item := data, TableName := TableName } s with
    | (.error err, s1) => (.error ("AddProduct -> New product could not be added: " ++ err), s1)
    | (.ok _, s1) => (.ok (), s1)

/-! ## config -/

/-- `type AWS struct` -/
structure AWS where
  AccessKeyID : String
  SecretAccessKeyID : String
  Region : String
  deriving DecidableEq

/-- `type Router struct` -/
structure Router where
  Port : String
  deriving DecidableEq

/-- `type settings struct { AWS; Router }` -/
structure settings where
  AWS : AWS
  Router : Router
  deriving DecidableEq

/-- The value of `var Settings settings` when the process starts: every string is empty. -/
def settings.zero : settings :=
  { AWS := { AccessKeyID := "", SecretAccessKeyID := "", Region := "" }, Router := { Port := "" } }

/-- `func (s settings) LoadConfigs(file string) error`.  `Open` is `os.Open` followed by reading
the file (its content, or the error of opening it); `Decode content old` is
`json.NewDecoder(configFile).Decode(&Settings)`: the error it reports and the value it leaves
in the global `Settings`, which is returned next to the result. -/
def LoadConfigs (Open : String → Except Error String)
    (Decode : String → settings → Except Error Unit × settings)
    (Settings : settings) (file : String) : Except Error Unit × settings :=
  match Open file with
  | .error err => (.error err, Settings)
  | .ok configFile =>
    -- `jsonParser.Decode(&Settings)`: the error it returns is not looked at
    let decoded := (Decode configFile Settings).2
    -- "no error, so return nil"
    (.ok (), decoded)

/-! ## dynamodbservice: bootstrap -/

/-- The loop of `tableExists`: `for _, n := range result.TableNames { if *n == name { return
true, nil } }; return false, nil`. -/
def tableExists.search (name : String) : List String → Bool
  | [] => false
  | n :: rest => if n = name then true else tableExists.search name rest

/-- `func (db *Products) tableExists(name string) (bool, error)` -/
def tableExists {σ : Type} (db : DynamoDB σ) (name : String) (s : σ) : Except Error Bool × σ :=
  match db.ListTables s with
  | (.error err, s1) => (.error err, s1)
  | (.ok result, s1) => (.ok (tableExists.search name result.TableNames), s1)

/-- `func (db *Products) listTables() error` -/
def listTables {σ : Type} (db : DynamoDB σ) (s : σ) : Except Error Unit × σ :=
  match db.ListTables s with
  | (.error err, s1) => (.error err, s1)
  | (.ok _, s1) => (.ok (), s1)

/-- The `input` that `createTable` builds. -/
def createTable.input : CreateTableInput :=
  { TableName := TableName
    KeySchema := [{ AttributeName := IdAttribute, KeyType := "HASH" }]
    AttributeDefinitions := [{ AttributeName := IdAttribute, AttributeType := "N" }]
    ProvisionedThroughput := { ReadCapacityUnits := 10, WriteCapacityUnits := 10 } }

/-- `func createTable() error`: an error of `CreateTable` is printed, and the function goes on
to its last statement, `return nil`. -/
def createTable {σ : Type} (Items : DynamoDB σ) (s : σ) : Except Error Unit × σ :=
  match Items.CreateTable createTable.input s with
  | (.error _, s1) => (.ok (), s1)
  | (.ok _, s1) => (.ok (), s1)

/-- `func Initialize() error`.  `NewSession` is `session.NewSession` on the region and
credentials of the settings; `Items` is the client `dynamodb.New(sess, ...)` gives.  The client
is a parameter: it is to be supplied as the client that a session made of these settings
gives, which for settings without a region is the client `unconfigured` below. -/
def Initialize {σ : Type} (NewSession : AWS → Except Error Unit) (Settings : settings)
    (Items : DynamoDB σ) (s : σ) : Except Error Unit × σ :=
  match NewSession Settings.AWS with
  | .error err => (.error ("INITIALIZATION ERROR: " ++ err), s)
  | .ok _ =>
    -- `Items.listTables()`: its result is dropped
    let s1 := (listTables Items s).2
    match tableExists Items TableName s1 with
    | (.error err, s2) => (.error ("INITIALIZATION ERROR: " ++ err), s2)
    | (.ok found, s2) =>
      if !found then
        -- `createTable()`: its result is dropped
        (.ok (), (createTable Items s2).2)
      else
        (.ok (), s2)

/-! ## main -/

/-- A response body: the text `http.Error` writes, or the JSON encoding that
`json.NewEncoder(w).Encode` writes of a product or of a slice of products, which is
represented by the value encoded. -/
inductive ResponseBody where
  | text (msg : String)
  | product (p : Product)
  | products (ps : List Product)
  deriving DecidableEq

/-- What the HTTP handlers write: the status code and the body. -/
structure Response where
  status : Nat
  body : ResponseBody
  deriving DecidableEq

/-- `http.Error(w, msg, code)`: the status and the message on a line. -/
def http.Error (msg : String) (code : Nat) : Response :=
  { status := code, body := .text (msg ++ "\n") }

/-- `func GetAllProducts(w http.ResponseWriter, r *http.Request)` -/
def GetAllProducts {σ : Type} (Items : DynamoDB σ) (unmarshal : Item → Except Error Product)
    (s : σ) : Response × σ :=
  match GetAll Items unmarshal s with
  | (.error err, s1) => (http.Error err 500, s1)
  | (.ok p, s1) => ({ status := 200, body := .products p }, s1)

/-- `func CreateProduct(w http.ResponseWriter, r *http.Request)`.  `Decode` is
`json.NewDecoder(r.Body).Decode(&p)` on a request body of type `β`. -/
def CreateProduct {σ β : Type} (Items : DynamoDB σ) (Decode : β → Except Error Product)
    (MarshalMap : Product → Except Error Item) (body : β) (s : σ) : Response × σ :=
  match Decode body with
  | .error err => (http.Error err 400, s)
  | .ok p =>
    match AddProduct Items MarshalMap p s with
    | (.error err, s1) => (http.Error err 500, s1)
    | (.ok _, s1) => ({ status := 201, body := .product p }, s1)

/-- How far `main` gets: `log.Fatal` with a message, or the call of `http.ListenAndServe` on
the configured address. -/
inductive Startup where
  | Fatal (msg : String)
  | ListenAndServe (addr : String)
  deriving DecidableEq

/-- `func main()`.  `Items` is the client that a session made of the loaded settings gives
(see `Initialize`). -/
def main {σ : Type} (Open : String → Except Error String)
    (Decode : String → settings → Except Error Unit × settings)
    (NewSession : AWS → Except Error Unit) (Items : DynamoDB σ) (s : σ) : Startup × σ :=
  match LoadConfigs Open Decode settings.zero "./config.json" with
  | (.error _, _) => (.Fatal "Error setting up config, make sure it's at specified route", s)
  | (.ok _, Settings) =>
    match Initialize NewSession Settings Items s with
    | (.error _, s1) => (.Fatal "Error Initializing database", s1)
    | (.ok _, s1) => (.ListenAndServe Settings.Router.Port, s1)


/-! ## Stores

Three remote stores the program is run against: a store whose answers are scripted and which
records the requests it receives, a store that is a map keyed by `id`, and that map answering a
scan with bounded responses. -/

/-- A request received by the store. -/
inductive Call where
  | Scan (input : ScanInput)
  | PutItem (input : PutItemInput)
  | ListTables
  | CreateTable (input : CreateTableInput)
  deriving DecidableEq

/-- The answers of a scripted store: the answer to a request may depend on how many requests
the store has received before it. -/
structure Script where
  Scan : Nat → Except Error ScanOutput
  PutItem : Nat → Except Error Unit
  ListTables : Nat → Except Error ListTablesOutput
  CreateTable : Nat → Except Error Unit

/-- The store that answers by the script; its state is the list of the requests received. -/
def scripted (answers : Script) : DynamoDB (List Call) where
  Scan input log := (answers.Scan log.length, log ++ [Call.Scan input])
  PutItem input log := (answers.PutItem log.length, log ++ [Call.PutItem input])
  ListTables log := (answers.ListTables log.length, log ++ [Call.ListTables])
  CreateTable input log := (answers.CreateTable log.length, log ++ [Call.CreateTable input])

/-- The partition key of a record: its attribute `id`. -/
def Item.key (item : Item) : Option AttributeValue :=
  item.lookup IdAttribute

/-- A put in a table keyed by `id`: the record with the same key is replaced, and a record with
a new key is added. -/
def putByKey (item : Item) : List Item → List Item
  | [] => [item]
  | r :: rest => if Item.key r = Item.key item then item :: rest else r :: putByKey item rest

/-- The store as a map keyed by `id` that holds the one table `Products`: a put overwrites by
key, a scan returns all values. -/
def mapStore : DynamoDB (List Item) where
  Scan _ table := (.ok { Items := table, LastEvaluatedKey := none }, table)
  PutItem input table := (.ok (), putByKey input.Item table)
  ListTables table := (.ok { TableNames := [TableName] }, table)
  CreateTable _ table := (.error "ResourceInUseException: Table already exists: Products", table)

/-- The key attributes of a record, as a scan reports them in `LastEvaluatedKey`. -/
def Item.keyAttributes (item : Item) : Item :=
  item.filter (fun a => a.1 == IdAttribute)

/-- The same map, answering a scan the way the remote service does: one response carries the
records up to a size limit (1 MB of data for the service; `pageLimit` records here) and, when
records remain, the key of the last record it carries as `LastEvaluatedKey`.  The program sends
no `ExclusiveStartKey`, so every scan it issues starts at the beginning of the table. -/
def pagedStore (pageLimit : Nat) : DynamoDB (List Item) where
  Scan _ table :=
    (.ok { Items := table.take pageLimit
           LastEvaluatedKey :=
             if pageLimit < table.length then
               (table.take pageLimit).getLast?.map Item.keyAttributes
             else none },
     table)
  PutItem input table := (.ok (), putByKey input.Item table)
  ListTables table := (.ok { TableNames := [TableName] }, table)
  CreateTable _ table := (.error "ResourceInUseException: Table already exists: Products", table)

/-! ## Codecs

Models of the library codecs on the type `Product`, used where a claim needs a concrete codec;
the program's functions take the codec as a parameter. -/

namespace dynamodbattribute

/-- The attributes `dynamodbattribute.MarshalMap` writes for a `Product`: `id` (the name is the
field's tag), `Name` and `Price`; an empty string is written as `NULL`. -/
def attributes (p : Product) : Item :=
  [("id", .N (p.Id : ℚ)),
   ("Name", if p.Name = "" then .NULL else .S p.Name),
   ("Price", .N p.Price)]

/-- `dynamodbattribute.MarshalMap(p)` for a `Product`; it has no failing case on this type. -/
def MarshalMap (p : Product) : Except Error Item :=
  .ok (attributes p)

/-- Reading an attribute into an `int` field: an absent or `NULL` attribute leaves the zero
value, a number must be an integer. -/
def decodeInt : Option AttributeValue → Except Error Int
  | none => .ok 0
  | some .NULL => .ok 0
  | some (.N n) => if n.den = 1 then .ok n.num else .error "strconv.ParseInt: invalid syntax"
  | some (.S _) => .error "dynamodbattribute: cannot unmarshal string into Go value of type int"

/-- Reading an attribute into a `string` field.  (The library also accepts a number here and
stores its text; the text of a number is not modelled, and the case is reported as an error.) -/
def decodeString : Option AttributeValue → Except Error String
  | none => .ok ""
  | some .NULL => .ok ""
  | some (.S s) => .ok s
  | some (.N _) => .error "dynamodbattribute: number in a string field"

/-- Reading an attribute into a `float64` field. -/
def decodeFloat : Option AttributeValue → Except Error ℚ
  | none => .ok 0
  | some .NULL => .ok 0
  | some (.N n) => .ok n
  | some (.S _) =>
    .error "dynamodbattribute: cannot unmarshal string into Go value of type float64"

/-- `dynamodbattribute.UnmarshalMap(item, &p)` for a `Product`. -/
def UnmarshalMap (item : Item) : Except Error Product :=
  match decodeInt (item.lookup "id") with
  | .error err => .error err
  | .ok id =>
    match decodeString (item.lookup "Name") with
    | .error err => .error err
    | .ok name =>
      match decodeFloat (item.lookup "Price") with
      | .error err => .error err
      | .ok price => .ok { Id := id, Name := name, Price := price }

end dynamodbattribute

namespace json

/-- A JSON value.  A number is `int` when its literal has neither a fraction nor an exponent,
and `real` otherwise, with the value the literal denotes. -/
inductive Value where
  | null
  | bool (b : Bool)
  | int (n : Int)
  | real (q : ℚ)
  | string (s : String)
  | array (elems : List Value)
  | object (members : List (String × Value))

/-- A request body as the decoder reads it: text that does not start with a JSON value (with
the syntax error the decoder reports), or the first JSON value of the text. -/
inductive Body where
  | malformed (err : Error)
  | value (v : Value)

/-- The name `encoding/json` gives a kind of value in its type errors. -/
def Value.kind : Value → String
  | .null => "null"
  | .bool _ => "bool"
  | .int _ => "number"
  | .real _ => "number"
  | .string _ => "string"
  | .array _ => "array"
  | .object _ => "object"

/-- The error of a member whose value does not fit the field. -/
def typeError (v : Value) (field type : String) : Error :=
  "json: cannot unmarshal " ++ v.kind ++ " into Go struct field Product." ++ field ++
    " of type " ++ type

/-- One member of the object read into the struct: the key selects the field without regard
to case, an unknown key is skipped, `null` leaves the field as it is, a value of another kind
than the field's is a type error.  The first type error is kept and decoding goes on. -/
def setField (key : String) (v : Value) (st : Product × Option Error) : Product × Option Error :=
  if key.toLower = "id" then
    match v with
    | .null => st
    | .int n =>
      if -(2 : Int) ^ 63 ≤ n ∧ n < (2 : Int) ^ 63 then ({ st.1 with Id := n }, st.2)
      else (st.1, st.2.orElse (fun _ => some (typeError v "id" "int")))
    | _ => (st.1, st.2.orElse (fun _ => some (typeError v "id" "int")))
  else if key.toLower = "name" then
    match v with
    | .null => st
    | .string s => ({ st.1 with Name := s }, st.2)
    | _ => (st.1, st.2.orElse (fun _ => some (typeError v "Name" "string")))
  else if key.toLower = "price" then
    match v with
    | .null => st
    | .int n => ({ st.1 with Price := (n : ℚ) }, st.2)
    | .real q => ({ st.1 with Price := q }, st.2)
    | _ => (st.1, st.2.orElse (fun _ => some (typeError v "Price" "float64")))
  else st

/-- `json.NewDecoder(r.Body).Decode(&p)` for `var p Product`: a body that is not JSON is a
syntax error; `null` leaves `p` as it is; an object sets the fields its members name, and a
field no member names keeps its zero value; any other value is a type error. -/
def Decode : Body → Except Error Product
  | .malformed err => .error err
  | .value .null => .ok { Id := 0, Name := "", Price := 0 }
  | .value (.object members) =>
    match members.foldl (fun st m => setField m.1 m.2 st)
        (({ Id := 0, Name := "", Price := 0 } : Product), (none : Option Error)) with
    | (_, some err) => .error err
    | (p, none) => .ok p
  | .value v =>
    .error ("json: cannot unmarshal " ++ v.kind ++ " into Go value of type dynamodbservice.Product")

end json

/-! ## Scenarios -/

/-- The calls `AddProduct(p)` for the products of a list, in order: the results of the calls
and the state of the store after the last one. -/
def addProducts {σ : Type} (Items : DynamoDB σ) (MarshalMap : Product → Except Error Item) :
    List Product → σ → List (Except Error Unit) × σ
  | [], s => ([], s)
  | p :: ps, s =>
    let r := AddProduct Items MarshalMap p s
    let rest := addProducts Items MarshalMap ps r.2
    (r.1 :: rest.1, rest.2)


/-- A put in a list of products with distinct ids: what `putByKey` does to the table, read on
the products the records encode. -/
def putProduct (p : Product) : List Product → List Product
  | [] => [p]
  | r :: rest => if r.Id = p.Id then p :: rest else r :: putProduct p rest

/-! ## Sample data -/

/-- The product `{id:1, Name:"Widget", Price:9.99}`. -/
def widget : Product := { Id := 1, Name := "Widget", Price := 9.99 }

/-- The product `{id:2, Name:"Gadget", Price:19.99}`. -/
def gadget : Product := { Id := 2, Name := "Gadget", Price := 19.99 }

/-- The product `{id:3, Name:"Gizmo", Price:4.5}`. -/
def gizmo : Product := { Id := 3, Name := "Gizmo", Price := 4.5 }

/-- A `session.NewSession` that succeeds. -/
def sessionOk : AWS → Except Error Unit :=
  fun _ => .ok ()

/-- A file system in which every path holds the given text. -/
def fileWith (content : String) : String → Except Error String :=
  fun _ => .ok content

/-- A JSON decoder of the configuration that reads the port `":8080"` from any text. -/
def decodePort8080 : String → settings → Except Error Unit × settings :=
  fun _ old => (.ok (), { old with Router := { Port := ":8080" } })

/-- A JSON decoder of the configuration that rejects the text and leaves `Settings` as it is. -/
def decodeRejects : String → settings → Except Error Unit × settings :=
  fun _ old => (.error "unexpected end of JSON input", old)

/-- A configuration file whose `aws` section is well formed and whose `router.port` is a
number where a string is expected. -/
def configWithNumericPort : String :=
  "\x7b\"aws\": \x7b\"accessKeyId\": \"k\", \"secretAccessKeyId\": \"s\", \"region\": \"us-east-1\"\x7d, \"router\": \x7b\"port\": 8080\x7d\x7d"

/-- The JSON decoder of the configuration on a text like `configWithNumericPort`: the `aws`
section is stored in `Settings`, the port is left as it is, and the type error of the port is
reported. -/
def decodeAwsThenRejects : String → settings → Except Error Unit × settings :=
  fun _ old =>
    (.error "json: cannot unmarshal number into Go struct field settings.router.port of type string",
     { old with AWS := { AccessKeyID := "k", SecretAccessKeyID := "s", Region := "us-east-1" } })

/-- The client of a session whose settings have no region: every call fails before a request
is sent, and the state of the store is untouched. -/
def unconfigured {σ : Type} : DynamoDB σ where
  Scan _ s := (.error "MissingRegion: could not find region configuration", s)
  PutItem _ s := (.error "MissingRegion: could not find region configuration", s)
  ListTables s := (.error "MissingRegion: could not find region configuration", s)
  CreateTable _ s := (.error "MissingRegion: could not find region configuration", s)

/-- The script of a store that lists the given tables and accepts every request. -/
def Script.accepting (names : List String) : Script where
  Scan _ := .ok { Items := [], LastEvaluatedKey := none }
  PutItem _ := .ok ()
  ListTables _ := .ok { TableNames := names }
  CreateTable _ := .ok ()

/-- The script of a store with no table that rejects the creation of a table. -/
def Script.createTableFails : Script where
  Scan _ := .ok { Items := [], LastEvaluatedKey := none }
  PutItem _ := .ok ()
  ListTables _ := .ok { TableNames := [] }
  CreateTable _ := .error "LimitExceededException: too many tables"

/-- The script of a store holding the table `Products` whose first answer to a list-tables
request is a failure and whose later answers are the list of its tables. -/
def Script.firstListTablesFails : Script where
  Scan _ := .ok { Items := [], LastEvaluatedKey := none }
  PutItem _ := .ok ()
  ListTables n := if n = 0 then .error "RequestError: send request failed"
    else .ok { TableNames := ["Products"] }
  CreateTable _ := .ok ()

/-- The script of a store whose first answer to a scan is a failure and whose later answers
are an empty table. -/
def Script.firstScanFails : Script where
  Scan n := if n = 0 then .error "ProvisionedThroughputExceededException"
    else .ok { Items := [], LastEvaluatedKey := none }
  PutItem _ := .ok ()
  ListTables _ := .ok { TableNames := ["Products"] }
  CreateTable _ := .ok ()

/-! ## Properties of the library routines -/

theorem sort.sinkLeft_perm {α : Type} (less : α → α → Bool) (x : α) (l : List α) :
    (sort.sinkLeft less x l).Perm (x :: l) := by
  induction l with
  | nil => exact List.Perm.refl _
  | cons y left ih =>
    unfold sort.sinkLeft
    split
    · exact ((List.Perm.cons y ih).trans (List.Perm.swap x y left))
    · exact List.Perm.refl _

theorem sort.Slice_perm {α : Type} (less : α → α → Bool) (x : List α) :
    (sort.Slice x less).Perm x := by
  have key : ∀ (l acc : List α),
      (l.foldl (fun sorted e => sort.sinkLeft less e sorted) acc).Perm (l.reverse ++ acc) := by
    intro l
    induction l with
    | nil => intro acc; simp
    | cons e l ih =>
      intro acc
      simp only [List.foldl_cons, List.reverse_cons, List.append_assoc, List.singleton_append]
      exact (ih _).trans (List.Perm.append_left _ (sort.sinkLeft_perm less e acc))
  unfold sort.Slice
  have h := key x []
  simp only [List.append_nil] at h
  exact (List.reverse_perm _).trans (h.trans (List.reverse_perm _))

/-- When `less` refines a transitive relation `r` (`less x y` gives `r y x`, its failure gives
`r x y`), sinking an element into a list that is `r`-ordered keeps it `r`-ordered. -/
theorem sort.sinkLeft_pairwise {α : Type} (less : α → α → Bool) (r : α → α → Prop)
    (htrans : ∀ a b c, r a b → r b c → r a c)
    (hlt : ∀ a b, less a b = true → r b a) (hge : ∀ a b, less a b = false → r a b)
    (x : α) (l : List α) (hl : l.Pairwise r) : (sort.sinkLeft less x l).Pairwise r := by
  induction l with
  | nil => simp [sort.sinkLeft]
  | cons y left ih =>
    rw [List.pairwise_cons] at hl
    unfold sort.sinkLeft
    split
    · rename_i h
      rw [List.pairwise_cons]
      refine ⟨?_, ih hl.2⟩
      intro z hz
      have hz2 := (sort.sinkLeft_perm less x left).subset hz
      rcases List.mem_cons.mp hz2 with rfl | hz3
      · exact hlt _ _ h
      · exact hl.1 z hz3
    · rename_i h
      have hxy : r x y := hge x y (by simpa using h)
      rw [List.pairwise_cons]
      refine ⟨?_, List.pairwise_cons.mpr hl⟩
      intro z hz
      rcases List.mem_cons.mp hz with rfl | hz3
      · exact hxy
      · exact htrans _ _ _ hxy (hl.1 z hz3)

theorem sort.Slice_pairwise {α : Type} (less : α → α → Bool) (r : α → α → Prop)
    (htrans : ∀ a b c, r a b → r b c → r a c)
    (hlt : ∀ a b, less a b = true → r b a) (hge : ∀ a b, less a b = false → r a b)
    (x : List α) : (sort.Slice x less).Pairwise (fun a b => r b a) := by
  have key : ∀ (l acc : List α), acc.Pairwise r →
      (l.foldl (fun sorted e => sort.sinkLeft less e sorted) acc).Pairwise r := by
    intro l
    induction l with
    | nil => intro acc h; simpa using h
    | cons e l ih =>
      intro acc h
      simp only [List.foldl_cons]
      exact ih _ (sort.sinkLeft_pairwise less r htrans hlt hge e acc h)
  unfold sort.Slice
  rw [List.pairwise_reverse]
  exact key x [] List.Pairwise.nil

/-- The comparison `GetAll` sorts with orders the result by price, highest first. -/
theorem sort_by_price_pairwise (temp : List Product) :
    (sort.Slice temp (fun a b => decide (a.Price > b.Price))).Pairwise
      (fun a b => a.Price ≥ b.Price) := by
  have h := sort.Slice_pairwise (fun a b : Product => decide (a.Price > b.Price))
    (fun a b => a.Price ≤ b.Price) (fun a b c h1 h2 => le_trans h1 h2)
    (fun a b h => by
      have h2 : a.Price > b.Price := by simpa using h
      exact le_of_lt h2)
    (fun a b h => by
      have h2 : ¬ a.Price > b.Price := by simpa using h
      exact not_lt.mp h2)
    temp
  exact h

/-! ## Properties of the codec and of the stores -/

theorem dynamodbattribute.UnmarshalMap_attributes (p : Product) :
    dynamodbattribute.UnmarshalMap (dynamodbattribute.attributes p) = .ok p := by
  have h1 : ("Name" == "id") = false := by decide
  have h2 : ("Price" == "id") = false := by decide
  have h3 : ("Price" == "Name") = false := by decide
  cases p with
  | mk id name price =>
    by_cases hn : name = ""
    · subst hn
      simp [dynamodbattribute.UnmarshalMap, dynamodbattribute.attributes, List.lookup, h1, h2, h3,
        dynamodbattribute.decodeInt, dynamodbattribute.decodeString,
        dynamodbattribute.decodeFloat]
    · simp [dynamodbattribute.UnmarshalMap, dynamodbattribute.attributes, List.lookup, h1, h2, h3,
        dynamodbattribute.decodeInt, dynamodbattribute.decodeString,
        dynamodbattribute.decodeFloat, hn]

theorem dynamodbattribute.UnmarshalListOfMaps_attributes (ps : List Product) :
    dynamodbattribute.UnmarshalListOfMaps dynamodbattribute.UnmarshalMap
      (ps.map dynamodbattribute.attributes) = .ok ps := by
  induction ps with
  | nil => rfl
  | cons p ps ih =>
    simp [dynamodbattribute.UnmarshalListOfMaps, dynamodbattribute.UnmarshalMap_attributes, ih]

theorem Item.key_attributes (p : Product) :
    Item.key (dynamodbattribute.attributes p) = some (.N (p.Id : ℚ)) := by
  simp [Item.key, dynamodbattribute.attributes, IdAttribute, List.lookup]

theorem putByKey_attributes (p : Product) (l : List Product) :
    putByKey (dynamodbattribute.attributes p) (l.map dynamodbattribute.attributes)
      = (putProduct p l).map dynamodbattribute.attributes := by
  induction l with
  | nil => rfl
  | cons r rest ih =>
    simp only [List.map_cons, putByKey, putProduct, Item.key_attributes, Option.some.injEq,
      AttributeValue.N.injEq, Int.cast_inj]
    by_cases h : r.Id = p.Id
    · simp [h]
    · simp [h, ih]

theorem AddProduct_mapStore (p : Product) (l : List Product) :
    AddProduct mapStore dynamodbattribute.MarshalMap p (l.map dynamodbattribute.attributes)
      = (.ok (), (putProduct p l).map dynamodbattribute.attributes) := by
  simp only [AddProduct, dynamodbattribute.MarshalMap, mapStore, putByKey_attributes]

theorem addProducts_mapStore (ps : List Product) (l : List Product) :
    addProducts mapStore dynamodbattribute.MarshalMap ps (l.map dynamodbattribute.attributes)
      = (List.replicate ps.length (.ok ()),
          (ps.foldl (fun acc p => putProduct p acc) l).map dynamodbattribute.attributes) := by
  induction ps generalizing l with
  | nil => rfl
  | cons p ps ih =>
    simp only [addProducts, AddProduct_mapStore, ih, List.length_cons, List.replicate_succ,
      List.foldl_cons]

theorem GetAll_mapStore (unmarshal : Item → Except Error Product) (table : List Item)
    (temp : List Product)
    (h : dynamodbattribute.UnmarshalListOfMaps unmarshal table = .ok temp) :
    GetAll mapStore unmarshal table
      = (.ok (sort.Slice temp (fun a b => decide (a.Price > b.Price))), table) := by
  simp only [GetAll, mapStore, h]

theorem map_Id_putProduct (p : Product) (l : List Product) :
    (putProduct p l).map Product.Id
      = if p.Id ∈ l.map Product.Id then l.map Product.Id else l.map Product.Id ++ [p.Id] := by
  induction l with
  | nil => simp [putProduct]
  | cons r rest ih =>
    unfold putProduct
    by_cases h : r.Id = p.Id
    · simp [h]
    · have h2 : ¬ p.Id = r.Id := fun e => h e.symm
      simp only [h, if_false, List.map_cons, ih, List.mem_cons, h2, false_or]
      split <;> simp

theorem nodup_Id_putProduct (p : Product) (l : List Product)
    (hl : (l.map Product.Id).Nodup) : ((putProduct p l).map Product.Id).Nodup := by
  rw [map_Id_putProduct]
  split
  · exact hl
  · rename_i h
    rw [List.nodup_append]
    refine ⟨hl, List.nodup_singleton _, ?_⟩
    intro a ha hb
    rw [List.mem_singleton] at hb
    subst hb
    exact h ha

/-- Membership after a put in a list with distinct ids: the product put, and the products
with another id. -/
theorem mem_putProduct (p x : Product) (l : List Product) (hl : (l.map Product.Id).Nodup) :
    x ∈ putProduct p l ↔ x = p ∨ (x ∈ l ∧ x.Id ≠ p.Id) := by
  induction l with
  | nil => simp [putProduct]
  | cons r rest ih =>
    rw [List.map_cons, List.nodup_cons] at hl
    unfold putProduct
    by_cases h : r.Id = p.Id
    · simp only [h, if_true, List.mem_cons]
      constructor
      · rintro (rfl | hx)
        · exact Or.inl rfl
        · refine Or.inr ⟨Or.inr hx, ?_⟩
          intro e
          exact hl.1 (by rw [h, ← e]; exact List.mem_map_of_mem _ hx)
      · rintro (rfl | ⟨hx | hx, hne⟩)
        · exact Or.inl rfl
        · subst hx; exact absurd h hne
        · exact Or.inr hx
    · simp only [h, if_false, List.mem_cons, ih hl.2]
      constructor
      · rintro (rfl | rfl | ⟨hx, hne⟩)
        · exact Or.inr ⟨Or.inl rfl, h⟩
        · exact Or.inl rfl
        · exact Or.inr ⟨Or.inr hx, hne⟩
      · rintro (rfl | ⟨rfl | hx, hne⟩)
        · exact Or.inr (Or.inl rfl)
        · exact Or.inl rfl
        · exact Or.inr (Or.inr ⟨hx, hne⟩)

theorem nodup_Id_foldl_putProduct (ps acc : List Product) (hacc : (acc.map Product.Id).Nodup) :
    ((ps.foldl (fun acc p => putProduct p acc) acc).map Product.Id).Nodup := by
  induction ps generalizing acc with
  | nil => exact hacc
  | cons p ps ih => exact ih _ (nodup_Id_putProduct p acc hacc)

/-- After a sequence of puts the list holds, for every id put, the last product put with that
id, and the products it held before whose id was not put. -/
theorem mem_foldl_putProduct (x : Product) (ps acc : List Product)
    (hacc : (acc.map Product.Id).Nodup) :
    x ∈ ps.foldl (fun acc p => putProduct p acc) acc ↔
      (∃ before after, ps = before ++ x :: after ∧ ∀ y ∈ after, y.Id ≠ x.Id) ∨
      (x ∈ acc ∧ ∀ y ∈ ps, y.Id ≠ x.Id) := by
  induction ps generalizing acc with
  | nil => simp
  | cons p ps ih =>
    rw [List.foldl_cons, ih _ (nodup_Id_putProduct p acc hacc), mem_putProduct p x acc hacc]
    constructor
    · rintro (⟨b, a, hps, ha⟩ | ⟨rfl | ⟨hx, hne⟩, hall⟩)
      · exact Or.inl ⟨p :: b, a, by rw [hps]; rfl, ha⟩
      · exact Or.inl ⟨[], ps, rfl, hall⟩
      · refine Or.inr ⟨hx, ?_⟩
        intro y hy
        rcases List.mem_cons.mp hy with rfl | hy
        · exact fun e => hne e.symm
        · exact hall y hy
    · rintro (⟨b, a, hps, ha⟩ | ⟨hx, hall⟩)
      · cases b with
        | nil =>
          simp only [List.nil_append, List.cons.injEq] at hps
          obtain ⟨rfl, rfl⟩ := hps
          exact Or.inr ⟨Or.inl rfl, ha⟩
        | cons b0 b =>
          simp only [List.cons_append, List.cons.injEq] at hps
          exact Or.inl ⟨b, a, hps.2, ha⟩
      · refine Or.inr ⟨Or.inr ⟨hx, ?_⟩, fun y hy => hall y (List.mem_cons_of_mem _ hy)⟩
        exact fun e => hall p (List.mem_cons_self _ _) e.symm

/-- A successful `GetAll` returns the decoded records of the response to its scan, each once,
in some order. -/
theorem GetAll_perm_scanned {σ : Type} (Items : DynamoDB σ)
    (unmarshal : Item → Except Error Product) (s : σ) (result : List Product)
    (hok : (GetAll Items unmarshal s).1 = .ok result) :
    ∃ out temp, (Items.Scan { TableName := TableName } s).1 = .ok out ∧
      dynamodbattribute.UnmarshalListOfMaps unmarshal out.Items = .ok temp ∧
      result.Perm temp := by
  unfold GetAll at hok
  split at hok
  · simp at hok
  · rename_i out s1 hscan
    split at hok
    · simp at hok
    · rename_i temp htemp
      simp only [Except.ok.injEq] at hok
      subst hok
      exact ⟨out, temp, by rw [hscan], htemp, sort.Slice_perm _ temp⟩

theorem sort_Slice_widget_gadget :
    sort.Slice [widget, gadget] (fun a b => decide (a.Price > b.Price)) = [gadget, widget] := by
  simp only [sort.Slice, sort.sinkLeft, List.foldl_cons, List.foldl_nil, widget, gadget]
  norm_num

theorem GetAll_widget_gadget :
    (GetAll mapStore dynamodbattribute.UnmarshalMap
      (addProducts mapStore dynamodbattribute.MarshalMap [widget, gadget] []).2).1
      = .ok [gadget, widget] := by
  have h := addProducts_mapStore [widget, gadget] []
  simp only [List.map_nil] at h
  rw [h, GetAll_mapStore _ _ _ (dynamodbattribute.UnmarshalListOfMaps_attributes _)]
  have e : List.foldl (fun acc p => putProduct p acc) [] [widget, gadget] = [widget, gadget] := by
    simp [putProduct, widget, gadget]
  rw [e, sort_Slice_widget_gadget]

/-- When a record fails to decode, the decoding of the list fails with the error of a record
of the list. -/
theorem dynamodbattribute.UnmarshalListOfMaps_error (unmarshal : Item → Except Error Product)
    (items : List Item) (h : ∃ item ∈ items, ∃ err, unmarshal item = .error err) :
    ∃ item ∈ items, ∃ err, unmarshal item = .error err ∧
      dynamodbattribute.UnmarshalListOfMaps unmarshal items = .error err := by
  induction items with
  | nil => simp at h
  | cons item rest ih =>
    cases hi : unmarshal item with
    | error e =>
      exact ⟨item, List.mem_cons_self _ _, e, hi,
        by simp [dynamodbattribute.UnmarshalListOfMaps, hi]⟩
    | ok q =>
      have hrest : ∃ item ∈ rest, ∃ err, unmarshal item = .error err := by
        obtain ⟨it, hmem, e, he⟩ := h
        rcases List.mem_cons.mp hmem with rfl | hmem
        · rw [hi] at he; simp at he
        · exact ⟨it, hmem, e, he⟩
      obtain ⟨it, hmem, e, he, hall⟩ := ih hrest
      exact ⟨it, List.mem_cons_of_mem _ hmem, e, he,
        by simp [dynamodbattribute.UnmarshalListOfMaps, hi, hall]⟩

/-! ## Properties of the startup sequence -/

/-- The loop of `tableExists` finds the name exactly when it is in the list. -/
theorem tableExists.search_iff (name : String) (names : List String) :
    tableExists.search name names = true ↔ name ∈ names := by
  induction names with
  | nil => simp [tableExists.search]
  | cons n rest ih =>
    unfold tableExists.search
    by_cases h : n = name
    · simp [h]
    · have h2 : ¬ name = n := fun e => h e.symm
      simp [h, h2, ih]

/-- A configuration file that cannot be opened: `LoadConfigs` returns the error of opening
it. -/
theorem LoadConfigs_error_of_open (Open : String → Except Error String)
    (Decode : String → settings → Except Error Unit × settings) (Settings : settings)
    (file : String) (err : Error) (hopen : Open file = .error err) :
    LoadConfigs Open Decode Settings file = (.error err, Settings) := by
  simp [LoadConfigs, hopen]

/-- A configuration file that can be opened: `LoadConfigs` returns no error, whatever the
decoder reports. -/
theorem LoadConfigs_ok_of_open (Open : String → Except Error String)
    (Decode : String → settings → Except Error Unit × settings) (Settings : settings)
    (file content : String) (hopen : Open file = .ok content) :
    LoadConfigs Open Decode Settings file = (.ok (), (Decode content Settings).2) := by
  simp [LoadConfigs, hopen]

/-- When the configuration file cannot be opened `main` stops in `log.Fatal` and the store
receives nothing. -/
theorem main_fatal_of_open_error {σ : Type} (Open : String → Except Error String)
    (Decode : String → settings → Except Error Unit × settings)
    (NewSession : AWS → Except Error Unit) (Items : DynamoDB σ) (s : σ) (err : Error)
    (hopen : Open "./config.json" = .error err) :
    main Open Decode NewSession Items s
      = (.Fatal "Error setting up config, make sure it's at specified route", s) := by
  simp [main, LoadConfigs, hopen]

/-- A failure to establish the session is returned by `Initialize`, and the store receives
nothing. -/
theorem Initialize_error_of_session {σ : Type} (NewSession : AWS → Except Error Unit)
    (Settings : settings) (Items : DynamoDB σ) (s : σ) (err : Error)
    (hsess : NewSession Settings.AWS = .error err) :
    Initialize NewSession Settings Items s = (.error ("INITIALIZATION ERROR: " ++ err), s) := by
  simp [Initialize, hsess]

/-- A failure of the list-tables request of `tableExists` is returned by `Initialize`. -/
theorem Initialize_error_of_tableExists {σ : Type} (NewSession : AWS → Except Error Unit)
    (Settings : settings) (Items : DynamoDB σ) (s : σ) (err : Error)
    (hsess : NewSession Settings.AWS = .ok ())
    (hlist : (tableExists Items TableName (listTables Items s).2).1 = .error err) :
    (Initialize NewSession Settings Items s).1 = .error ("INITIALIZATION ERROR: " ++ err) := by
  cases hte : tableExists Items TableName (listTables Items s).2 with
  | mk r s2 =>
    rw [hte] at hlist
    simp only at hlist
    subst hlist
    simp [Initialize, hsess, hte]

/-- An error of `Initialize` stops `main` in `log.Fatal`. -/
theorem main_fatal_of_Initialize_error {σ : Type} (Open : String → Except Error String)
    (Decode : String → settings → Except Error Unit × settings)
    (NewSession : AWS → Except Error Unit) (Items : DynamoDB σ) (s : σ)
    (content : String) (err : Error) (hopen : Open "./config.json" = .ok content)
    (hinit : (Initialize NewSession (Decode content settings.zero).2 Items s).1 = .error err) :
    (main Open Decode NewSession Items s).1 = .Fatal "Error Initializing database" := by
  cases hi : Initialize NewSession (Decode content settings.zero).2 Items s with
  | mk r s1 =>
    rw [hi] at hinit
    simp only at hinit
    subst hinit
    simp [main, LoadConfigs, hopen, hi]

/-- A scan that fails is not sent again: the store's second answer would be a success, and
`GetAll` returns the failure of the first after one request. -/
theorem GetAll_first_scan_fails (unmarshal : Item → Except Error Product) :
    GetAll (scripted Script.firstScanFails) unmarshal []
      = (.error ("Query GetAll failed:\n" ++ "ProvisionedThroughputExceededException"),
         [Call.Scan { TableName := "Products" }]) := by
  rfl

/-! ## Claims -/

/-- C1: whenever `GetAll` returns without error, whatever the store and the record decoder,
the returned sequence is in non-increasing price order: at every pair of adjacent positions
`i`, `i+1` the price at `i` is at least the price at `i+1`. -/
theorem GetAll_sorted_by_price_descending {σ : Type} (Items : DynamoDB σ)
    (unmarshal : Item → Except Error Product) (s : σ) (result : List Product)
    (hok : (GetAll Items unmarshal s).1 = .ok result) :
    ∀ (i : Nat) (h : i + 1 < result.length),
      (result.get ⟨i, Nat.lt_of_succ_lt h⟩).Price ≥ (result.get ⟨i + 1, h⟩).Price := by
  unfold GetAll at hok
  split at hok
  · simp at hok
  · split at hok
    · simp at hok
    · rename_i temp _
      simp only [Except.ok.injEq] at hok
      subst hok
      intro i h
      have hp := sort_by_price_pairwise temp
      rw [List.pairwise_iff_getElem] at hp
      exact hp i (i + 1) (Nat.lt_of_succ_lt h) h (Nat.lt_succ_self i)


/-- The order of `GetAll` on the table that holds the widget and the gadget. -/
theorem GetAll_sorted_by_price_descending_witness :
    (GetAll mapStore dynamodbattribute.UnmarshalMap
        (addProducts mapStore dynamodbattribute.MarshalMap [widget, gadget] []).2).1
      = .ok [gadget, widget] ∧
    ∀ (i : Nat) (h : i + 1 < [gadget, widget].length),
      ([gadget, widget].get ⟨i, Nat.lt_of_succ_lt h⟩).Price
        ≥ ([gadget, widget].get ⟨i + 1, h⟩).Price :=
  ⟨GetAll_widget_gadget,
    GetAll_sorted_by_price_descending mapStore dynamodbattribute.UnmarshalMap _ [gadget, widget]
      GetAll_widget_gadget⟩

/-- C2, at a table that does not fit one scan response: the store holds three records and
carries two in a response; its answer to the scan names the key after which the scan would
continue, `GetAll` returns without error, and its result holds two products and lacks the
third record of the table. -/
theorem GetAll_returns_only_the_first_scan_response :
    ((pagedStore 2).Scan { TableName := TableName }
        ([widget, gadget, gizmo].map dynamodbattribute.attributes)).1
      = .ok { Items := [widget, gadget].map dynamodbattribute.attributes
              LastEvaluatedKey := some [("id", .N 2)] } ∧
    (GetAll (pagedStore 2) dynamodbattribute.UnmarshalMap
        ([widget, gadget, gizmo].map dynamodbattribute.attributes)).1 = .ok [gadget, widget] ∧
    gizmo ∉ [gadget, widget] ∧
    ¬ List.Perm [gadget, widget] [widget, gadget, gizmo] := by
  have hscan : (pagedStore 2).Scan { TableName := TableName }
        ([widget, gadget, gizmo].map dynamodbattribute.attributes)
      = (.ok { Items := [widget, gadget].map dynamodbattribute.attributes
               LastEvaluatedKey := some [("id", .N 2)] },
         [widget, gadget, gizmo].map dynamodbattribute.attributes) := by
    have h1 : ("Name" == IdAttribute) = false := by decide
    have h2 : ("Price" == IdAttribute) = false := by decide
    have h3 : ("id" == IdAttribute) = true := by decide
    simp [pagedStore, Item.keyAttributes, dynamodbattribute.attributes, List.filter, h1, h2, h3,
      gadget]
  refine ⟨by rw [hscan], ?_, ?_, ?_⟩
  · unfold GetAll
    rw [hscan]
    simp only [dynamodbattribute.UnmarshalListOfMaps_attributes, sort_Slice_widget_gadget]
  · simp [gizmo, gadget, widget]
  · intro h
    have := h.length_eq
    simp at this

/-- C3: over the store that is a map keyed by `id` (a put overwrites by key, a scan returns
all values), for every sequence of `AddProduct` calls from the empty table every call succeeds
and a following `GetAll` succeeds; its result has no two items with one id, holds exactly the
products that were inserted with no later insert of the same id (for every inserted id the
last product inserted with it), and is in non-increasing price order.  Inserting
`{id:1, Name:"Widget", Price:9.99}` and then `{id:2, Name:"Gadget", Price:19.99}` lists id 2
before id 1. -/
theorem GetAll_after_inserts_lists_last_write_per_id :
    (∀ ps : List Product,
      (∀ r ∈ (addProducts mapStore dynamodbattribute.MarshalMap ps []).1, r = .ok ()) ∧
      ∃ result : List Product,
        (GetAll mapStore dynamodbattribute.UnmarshalMap
          (addProducts mapStore dynamodbattribute.MarshalMap ps []).2).1 = .ok result ∧
        (result.map Product.Id).Nodup ∧
        (∀ x, x ∈ result ↔
          ∃ before after, ps = before ++ x :: after ∧ ∀ y ∈ after, y.Id ≠ x.Id) ∧
        (∀ (i : Nat) (h : i + 1 < result.length),
          (result.get ⟨i, Nat.lt_of_succ_lt h⟩).Price ≥ (result.get ⟨i + 1, h⟩).Price)) ∧
    (GetAll mapStore dynamodbattribute.UnmarshalMap
        (addProducts mapStore dynamodbattribute.MarshalMap [widget, gadget] []).2).1
      = .ok [gadget, widget] := by
  refine ⟨?_, GetAll_widget_gadget⟩
  intro ps
  have hrun := addProducts_mapStore ps []
  simp only [List.map_nil] at hrun
  rw [hrun]
  refine ⟨fun r hr => (List.eq_of_mem_replicate hr), ?_⟩
  rw [GetAll_mapStore _ _ _ (dynamodbattribute.UnmarshalListOfMaps_attributes _)]
  have hperm := sort.Slice_perm (fun a b : Product => decide (a.Price > b.Price))
    (ps.foldl (fun acc p => putProduct p acc) [])
  refine ⟨_, rfl, ?_, ?_, ?_⟩
  · exact (hperm.map Product.Id).nodup_iff.mpr
      (nodup_Id_foldl_putProduct ps [] List.nodup_nil)
  · intro x
    rw [hperm.mem_iff, mem_foldl_putProduct x ps [] List.nodup_nil]
    simp
  · intro i h
    have hp := sort_by_price_pairwise (ps.foldl (fun acc p => putProduct p acc) [])
    rw [List.pairwise_iff_getElem] at hp
    exact hp i (i + 1) (Nat.lt_of_succ_lt h) h (Nat.lt_succ_self i)


/-- C5, at two failing store steps.  (1) The store has no table and rejects the creation of
the table: `Initialize` issues the create-table request, gets the failure, and returns no
error; `main` goes on to `ListenAndServe`.  (2) The list-tables request of `listTables` fails
and the one of `tableExists` succeeds: `Initialize` returns no error. -/
theorem Initialize_returns_nil_after_failed_store_steps :
    Script.createTableFails.CreateTable 2 = .error "LimitExceededException: too many tables" ∧
    Initialize sessionOk settings.zero (scripted Script.createTableFails) []
      = (.ok (), [Call.ListTables, Call.ListTables, Call.CreateTable createTable.input]) ∧
    (main (fileWith "") decodePort8080 sessionOk (scripted Script.createTableFails) []).1
      = Startup.ListenAndServe ":8080" ∧
    Script.firstListTablesFails.ListTables 0 = .error "RequestError: send request failed" ∧
    Initialize sessionOk settings.zero (scripted Script.firstListTablesFails) []
      = (.ok (), [Call.ListTables, Call.ListTables]) := by
  refine ⟨rfl, ?_, ?_, rfl, ?_⟩
  · rfl
  · rfl
  · rfl


/-- C6: when the session is established and the store answers the list-tables request of
`tableExists` (the second request it receives, after the one of `listTables`) with a list of
names, `Initialize` issues a create-table request if and only if no listed name equals
`"Products"`.  With the name present the requests it issues are the two list-tables requests
and nothing else (no create-table, no put); with the name absent they are followed by exactly
one create-table request, for table `"Products"` with the one key schema element
`("id", HASH)`, the one attribute definition `("id", N)` and provisioned throughput
read 10 / write 10. -/
theorem Initialize_creates_table_iff_absent (NewSession : AWS → Except Error Unit)
    (Settings : settings) (answers : Script) (names : List String)
    (hsess : NewSession Settings.AWS = .ok ())
    (hlist : answers.ListTables 1 = .ok { TableNames := names }) :
    ((∃ input, Call.CreateTable input ∈ (Initialize NewSession Settings (scripted answers) []).2)
      ↔ "Products" ∉ names) ∧
    ("Products" ∈ names →
      (Initialize NewSession Settings (scripted answers) []).2
        = [Call.ListTables, Call.ListTables]) ∧
    ("Products" ∉ names →
      (Initialize NewSession Settings (scripted answers) []).2
        = [Call.ListTables, Call.ListTables,
           Call.CreateTable
             { TableName := "Products"
               KeySchema := [{ AttributeName := "id", KeyType := "HASH" }]
               AttributeDefinitions := [{ AttributeName := "id", AttributeType := "N" }]
               ProvisionedThroughput :=
                 { ReadCapacityUnits := 10, WriteCapacityUnits := 10 } }]) := by
  have hlog1 : (listTables (scripted answers) []).2 = [Call.ListTables] := by
    unfold listTables
    split <;> rename_i h <;> simp [scripted] at h <;> simp [h.2.symm]
  have hex : tableExists (scripted answers) TableName [Call.ListTables]
      = (.ok (tableExists.search TableName names), [Call.ListTables, Call.ListTables]) := by
    simp [tableExists, scripted, hlist]
  have hpresent : "Products" ∈ names →
      (Initialize NewSession Settings (scripted answers) []).2
        = [Call.ListTables, Call.ListTables] := by
    intro hmem
    have hs : tableExists.search TableName names = true :=
      (tableExists.search_iff _ _).mpr hmem
    simp [Initialize, hsess, hlog1, hex, hs]
  have habsent : "Products" ∉ names →
      (Initialize NewSession Settings (scripted answers) []).2
        = [Call.ListTables, Call.ListTables, Call.CreateTable createTable.input] := by
    intro hmem
    have hs : tableExists.search TableName names = false := by
      rw [← Bool.not_eq_true]
      exact fun h => hmem ((tableExists.search_iff _ _).mp h)
    have hct : (createTable (scripted answers) [Call.ListTables, Call.ListTables]).2
        = [Call.ListTables, Call.ListTables, Call.CreateTable createTable.input] := by
      unfold createTable
      split <;> rename_i h <;> simp [scripted] at h <;> simp [h.2.symm]
    simp [Initialize, hsess, hlog1, hex, hs, hct]
  refine ⟨?_, hpresent, habsent⟩
  constructor
  · rintro ⟨input, hin⟩ hmem
    rw [hpresent hmem] at hin
    simp at hin
  · intro hmem
    exact ⟨createTable.input, by rw [habsent hmem]; simp⟩

/-- A store that lists the one table `Orders`: the table `Products` is created. -/
theorem Initialize_creates_table_iff_absent_witness :
    sessionOk settings.zero.AWS = .ok () ∧
    (Script.accepting ["Orders"]).ListTables 1 = .ok { TableNames := ["Orders"] } ∧
    (Initialize sessionOk settings.zero (scripted (Script.accepting ["Orders"])) []).2
      = [Call.ListTables, Call.ListTables,
         Call.CreateTable
           { TableName := "Products"
             KeySchema := [{ AttributeName := "id", KeyType := "HASH" }]
             AttributeDefinitions := [{ AttributeName := "id", AttributeType := "N" }]
             ProvisionedThroughput :=
               { ReadCapacityUnits := 10, WriteCapacityUnits := 10 } }] :=
  ⟨rfl, rfl,
    (Initialize_creates_table_iff_absent sessionOk settings.zero (Script.accepting ["Orders"])
      ["Orders"] rfl rfl).2.2 (by decide)⟩

/-- C7, at two configuration files that exist and cannot be parsed as the expected object.
(1) The file holds `not json`: the decoder rejects the text, `LoadConfigs` returns no error and
leaves the settings empty; `main` does not stop at the configuration, it goes on to
`Initialize`, whose client has no region, and stops there in `log.Fatal`.  (2) The file holds
a well-formed `aws` section and a number as `router.port`: the decoder stores the section and
rejects the port, `LoadConfigs` returns no error, and `main` goes on to `Initialize` (the store
receives its requests) and to `ListenAndServe` on the empty address. -/
theorem LoadConfigs_returns_nil_on_unparseable_file :
    (decodeRejects "not json" settings.zero).1 = .error "unexpected end of JSON input" ∧
    LoadConfigs (fileWith "not json") decodeRejects settings.zero "./config.json"
      = (.ok (), settings.zero) ∧
    main (fileWith "not json") decodeRejects sessionOk unconfigured ([] : List Call)
      = (Startup.Fatal "Error Initializing database", []) ∧
    (decodeAwsThenRejects configWithNumericPort settings.zero).1
      = .error
          "json: cannot unmarshal number into Go struct field settings.router.port of type string" ∧
    LoadConfigs (fileWith configWithNumericPort) decodeAwsThenRejects settings.zero
        "./config.json"
      = (.ok (),
         { AWS := { AccessKeyID := "k", SecretAccessKeyID := "s", Region := "us-east-1" }
           Router := { Port := "" } }) ∧
    main (fileWith configWithNumericPort) decodeAwsThenRejects sessionOk
        (scripted (Script.accepting ["Products"])) []
      = (Startup.ListenAndServe "", [Call.ListTables, Call.ListTables]) := by
  refine ⟨rfl, rfl, rfl, rfl, rfl, rfl⟩

/-- C8: the status of the response of `CreateProduct` is 400 exactly when the body fails to
decode as a `Product`; when it decodes, the status is 500 exactly when `AddProduct`, called
on the decoded product, returns an error; and otherwise the status is 201 and the body is
the JSON encoding of the decoded product. -/
theorem CreateProduct_status {σ β : Type} (Items : DynamoDB σ)
    (Decode : β → Except Error Product) (MarshalMap : Product → Except Error Item)
    (body : β) (s : σ) :
    (((CreateProduct Items Decode MarshalMap body s).1.status = 400)
      ↔ ∃ err, Decode body = .error err) ∧
    (∀ p, Decode body = .ok p →
      ((((CreateProduct Items Decode MarshalMap body s).1.status = 500)
          ↔ ∃ err, (AddProduct Items MarshalMap p s).1 = .error err) ∧
       ((AddProduct Items MarshalMap p s).1 = .ok () →
          (CreateProduct Items Decode MarshalMap body s).1
            = { status := 201, body := .product p }) ∧
       (CreateProduct Items Decode MarshalMap body s).2 = (AddProduct Items MarshalMap p s).2))
    := by
  cases hd : Decode body with
  | error err =>
    refine ⟨by simp [CreateProduct, hd, http.Error], ?_⟩
    intro p hp
    simp at hp
  | ok p =>
    constructor
    · simp only [reduceCtorEq, exists_false, iff_false]
      simp only [CreateProduct, hd]
      split <;> simp [http.Error]
    · intro q hq
      simp only [Except.ok.injEq] at hq
      subst hq
      cases hadd : AddProduct Items MarshalMap p s with
      | mk r s1 =>
        cases r with
        | error e => simp [CreateProduct, hd, hadd, http.Error]
        | ok u => simp [CreateProduct, hd, hadd]


/-- C9: against a store with scripted answers, `GetAll` sends exactly one scan request,
whatever the answers (a failed scan is not tried again, even when a second request would
succeed).  When the scan fails it returns the error `"Query GetAll failed:\n"` followed by the
store's error, and no items; when the scan succeeds and some record fails to decode it returns
the error `"Unmarshalling GetAll failed:\n"` followed by the decoding error of a record, and
no items; and when it returns items, the scan succeeded and every record decoded. -/
theorem GetAll_returns_no_incomplete_results (answers : Script)
    (unmarshal : Item → Except Error Product) (log : List Call) :
    (GetAll (scripted answers) unmarshal log).2
      = log ++ [Call.Scan { TableName := "Products" }] ∧
    (∀ err, answers.Scan log.length = .error err →
      (GetAll (scripted answers) unmarshal log).1 = .error ("Query GetAll failed:\n" ++ err)) ∧
    (∀ out, answers.Scan log.length = .ok out →
      (∃ item ∈ out.Items, ∃ err, unmarshal item = .error err) →
      ∃ item ∈ out.Items, ∃ err, unmarshal item = .error err ∧
        (GetAll (scripted answers) unmarshal log).1
          = .error ("Unmarshalling GetAll failed:\n" ++ err)) ∧
    (∀ result, (GetAll (scripted answers) unmarshal log).1 = .ok result →
      ∃ out, answers.Scan log.length = .ok out ∧
        ∀ item ∈ out.Items, ∃ p, unmarshal item = .ok p) := by
  cases hscan : answers.Scan log.length with
  | error e =>
    refine ⟨by simp [GetAll, scripted, hscan, TableName], ?_, ?_, ?_⟩
    · intro err herr
      simp only [Except.error.injEq] at herr
      subst herr
      simp [GetAll, scripted, hscan]
    · intro out hout
      simp at hout
    · intro result hres
      simp [GetAll, scripted, hscan] at hres
  | ok out =>
    cases hdec : dynamodbattribute.UnmarshalListOfMaps unmarshal out.Items with
    | error e =>
      refine ⟨by simp [GetAll, scripted, hscan, hdec, TableName], ?_, ?_, ?_⟩
      · intro err herr
        simp at herr
      · intro out2 hout hex
        simp only [Except.ok.injEq] at hout
        subst hout
        obtain ⟨it, hmem, err, he, hall⟩ :=
          dynamodbattribute.UnmarshalListOfMaps_error unmarshal _ hex
        exact ⟨it, hmem, err, he, by simp [GetAll, scripted, hscan, hall]⟩
      · intro result hres
        simp [GetAll, scripted, hscan, hdec] at hres
    | ok temp =>
      refine ⟨by simp [GetAll, scripted, hscan, hdec, TableName], ?_, ?_, ?_⟩
      · intro err herr
        simp at herr
      · intro out2 hout hex
        simp only [Except.ok.injEq] at hout
        subst hout
        obtain ⟨it, hmem, err, he, hall⟩ :=
          dynamodbattribute.UnmarshalListOfMaps_error unmarshal _ hex
        rw [hdec] at hall
        simp at hall
      · intro result _
        refine ⟨out, rfl, ?_⟩
        intro item hmem
        cases hi : unmarshal item with
        | ok p => exact ⟨p, rfl⟩
        | error e =>
          obtain ⟨_, _, err, _, hall⟩ :=
            dynamodbattribute.UnmarshalListOfMaps_error unmarshal _ ⟨item, hmem, e, hi⟩
          rw [hdec] at hall
          simp at hall


/-- C10: whenever the session is established and `tableExists` reports the table absent
without error, `Initialize` returns no error, whatever the store answers to the create-table
request; `createTable` returns no error against every store in every state. -/
theorem Initialize_returns_nil_whatever_CreateTable_answers {σ : Type}
    (NewSession : AWS → Except Error Unit) (Settings : settings) (Items : DynamoDB σ) (s : σ)
    (hsess : NewSession Settings.AWS = .ok ())
    (habsent : (tableExists Items TableName (listTables Items s).2).1 = .ok false) :
    (Initialize NewSession Settings Items s).1 = .ok () ∧
    (Initialize NewSession Settings Items s).2
      = (Items.CreateTable createTable.input
          (tableExists Items TableName (listTables Items s).2).2).2 ∧
    ∀ s2, (createTable Items s2).1 = .ok () := by
  have hct : ∀ s2, createTable Items s2 = (.ok (), (Items.CreateTable createTable.input s2).2) := by
    intro s2
    unfold createTable
    split <;> rename_i h <;> simp [h]
  refine ⟨?_, ?_, fun s2 => by rw [hct]⟩
  · cases hte : tableExists Items TableName (listTables Items s).2 with
    | mk r s2 =>
      rw [hte] at habsent
      simp only at habsent
      subst habsent
      simp [Initialize, hsess, hte]
  · cases hte : tableExists Items TableName (listTables Items s).2 with
    | mk r s2 =>
      rw [hte] at habsent
      simp only at habsent
      subst habsent
      simp [Initialize, hsess, hte, hct]

/-- A store with no table that rejects the creation of a table. -/
theorem Initialize_returns_nil_whatever_CreateTable_answers_witness :
    sessionOk settings.zero.AWS = .ok () ∧
    (tableExists (scripted Script.createTableFails) TableName
      (listTables (scripted Script.createTableFails) []).2).1 = .ok false ∧
    ((scripted Script.createTableFails).CreateTable createTable.input
      [Call.ListTables, Call.ListTables]).1 = .error "LimitExceededException: too many tables" ∧
    (Initialize sessionOk settings.zero (scripted Script.createTableFails) []).1 = .ok () :=
  ⟨rfl, rfl, rfl,
    (Initialize_returns_nil_whatever_CreateTable_answers sessionOk settings.zero
      (scripted Script.createTableFails) [] rfl rfl).1⟩

/-- C4 fails at the body `{}`: the body decodes to the product with zero values, `CreateProduct`
sends the put request for it and answers 201, which is not a status of the 400 class, and the
table of the map store, empty before the request, holds a record after it. -/
theorem CreateProduct_accepts_object_without_fields :
    json.Decode (.value (.object [])) = .ok { Id := 0, Name := "", Price := 0 } ∧
    CreateProduct (scripted (Script.accepting ["Products"])) json.Decode
        dynamodbattribute.MarshalMap (json.Body.value (.object [])) []
      = ({ status := 201, body := .product { Id := 0, Name := "", Price := 0 } },
         [Call.PutItem
            { Item := dynamodbattribute.attributes { Id := 0, Name := "", Price := 0 }
              TableName := "Products" }]) ∧
    ¬ (400 ≤ (CreateProduct (scripted (Script.accepting ["Products"])) json.Decode
          dynamodbattribute.MarshalMap (json.Body.value (.object [])) []).1.status ∧
        (CreateProduct (scripted (Script.accepting ["Products"])) json.Decode
          dynamodbattribute.MarshalMap (json.Body.value (.object [])) []).1.status < 500) ∧
    (CreateProduct mapStore json.Decode dynamodbattribute.MarshalMap
        (json.Body.value (.object [])) []).2
      = [dynamodbattribute.attributes { Id := 0, Name := "", Price := 0 }] := by
  refine ⟨rfl, rfl, ?_, rfl⟩
  have h : (CreateProduct (scripted (Script.accepting ["Products"])) json.Decode
      dynamodbattribute.MarshalMap (json.Body.value (.object [])) []).1.status = 201 := rfl
  rw [h]
  decide

/-- C4, amended: for every request body that fails to decode as a `Product`, against every
store in every state, the response of `CreateProduct` has status 400 and carries the decoding
error, and the state of the store is the one before the request: no request reaches the
store.  A body that is not JSON is such a body for the JSON decoder. -/
theorem CreateProduct_rejects_undecodable_body {σ β : Type} (Items : DynamoDB σ)
    (Decode : β → Except Error Product) (MarshalMap : Product → Except Error Item)
    (body : β) (s : σ) (err : Error) (hdecode : Decode body = .error err) :
    CreateProduct Items Decode MarshalMap body s
      = ({ status := 400, body := .text (err ++ "\n") }, s) ∧
    ∀ syntaxError : Error,
      CreateProduct Items json.Decode MarshalMap (json.Body.malformed syntaxError) s
        = ({ status := 400, body := .text (syntaxError ++ "\n") }, s) := by
  constructor
  · simp only [CreateProduct, hdecode, http.Error]
  · intro syntaxError
    have hmal : json.Decode (json.Body.malformed syntaxError) = .error syntaxError := rfl
    simp only [CreateProduct, hmal, http.Error]

/-- A body that is a JSON string, against a store that records its requests. -/
theorem CreateProduct_rejects_undecodable_body_witness :
    json.Decode (.value (.string "id")) = .error
      "json: cannot unmarshal string into Go value of type dynamodbservice.Product" ∧
    CreateProduct (scripted (Script.accepting ["Products"])) json.Decode
        dynamodbattribute.MarshalMap (json.Body.value (.string "id")) []
      = ({ status := 400
           body := .text
             ("json: cannot unmarshal string into Go value of type dynamodbservice.Product"
               ++ "\n") }, []) :=
  ⟨rfl,
    (CreateProduct_rejects_undecodable_body (scripted (Script.accepting ["Products"]))
      json.Decode dynamodbattribute.MarshalMap (json.Body.value (.string "id")) []
      "json: cannot unmarshal string into Go value of type dynamodbservice.Product" rfl).1⟩

end ProductApi
